import Mathlib

/-!
Shallow embedding of `qgis-custom-gui.py` (class `LayerFieldFeatureWidget`),
a QGIS selection dialog combining a layer combo box, a field combo box and a
checkable attribute-value combo box.

Host objects (QGIS layers, fields, features, Qt widgets) are modelled by plain
Lean structures carrying exactly the observations the Python code makes of
them: a layer exposes a name, its class (vector or raster, compared in the
source via `type(layer) == type(QgsRasterLayer())`), a wkb geometry-type code,
its field list and its feature attribute table; a field exposes name, QVariant
type tag, type name, length and precision.  Python exceptions are modelled by
`Option`/`Except`; Python `list.sort()` is modelled by `List.insertionSort`
over the corresponding Python comparison relation.
-/

/-! ### Python string primitives

`needle in hay` on Python strings (used at line 283 of the source for layer
name filters, and by the spec's reading of the field filter) and the
code-point lexicographic order Python uses to sort strings. -/

/-- Python `str.startswith` on char lists: `isPrefixCharsB needle hay`. -/
def isPrefixCharsB : List Char → List Char → Bool
  | [], _ => true
  | _ :: _, [] => false
  | a :: as, b :: bs => a == b && isPrefixCharsB as bs

/-- Python `needle in hay` on char lists: some suffix of `hay` starts with `needle`. -/
def containsCharsB (needle : List Char) : List Char → Bool
  | [] => isPrefixCharsB needle []
  | c :: rest => isPrefixCharsB needle (c :: rest) || containsCharsB needle rest

/-- Python `needle in hay` for strings. -/
def strContainsB (hay needle : String) : Bool :=
  containsCharsB needle.data hay.data

/-- Python `str.lower()` on a character (layer/field names are ASCII here):
map 'A'-'Z' (code points 65-90) to 'a'-'z'. -/
def pyCharLower (c : Char) : Char :=
  if 65 ≤ c.toNat ∧ c.toNat ≤ 90 then Char.ofNat (c.toNat + 32) else c

/-- Python `str.lower()`. -/
def pyLower (s : String) : String := String.mk (s.data.map pyCharLower)

/-- Python `<` on strings: lexicographic by code point, a proper prefix is smaller. -/
def charListLt : List Char → List Char → Prop
  | [], [] => False
  | [], _ :: _ => True
  | _ :: _, [] => False
  | a :: as, b :: bs => a < b ∨ (a = b ∧ charListLt as bs)

def charListLt.dec : (as bs : List Char) → Decidable (charListLt as bs)
  | [], [] => isFalse (fun h => h)
  | [], _ :: _ => isTrue trivial
  | _ :: _, [] => isFalse (fun h => h)
  | a :: as, b :: bs =>
      have : Decidable (charListLt as bs) := charListLt.dec as bs
      inferInstanceAs (Decidable (a < b ∨ (a = b ∧ charListLt as bs)))

instance : DecidableRel charListLt := charListLt.dec

/-- Python `<` on strings. -/
def strLt (s t : String) : Prop := charListLt s.data t.data

instance : DecidableRel strLt := fun s t => charListLt.dec s.data t.data

/-- The (non-strict) order `list.sort()` establishes on Python strings. -/
def strLe (s t : String) : Prop := strLt s t ∨ s = t

instance : DecidableRel strLe := fun s t =>
  inferInstanceAs (Decidable (strLt s t ∨ s = t))

/-! ### Host data model -/

/-- A `QDate` value (field type tag 14), as stored in a date attribute. -/
structure DateV where
  year : Nat
  month : Nat
  day : Nat
deriving DecidableEq

/-- An attribute value of a feature: PyQGIS hands the dialog ints, strings or
dates depending on the field type.  (`NULL` and the remaining QVariant kinds
never reach the claims under scrutiny and are not modelled.) -/
inductive AttrValue where
  | vInt (i : Int)
  | vStr (s : String)
  | vDate (d : DateV)
deriving DecidableEq

/-- A `QgsField`: name, QVariant type tag (2 Int, 4 LongLong, 6 Double,
10 String, 14 Date, ...), type name, length, precision. -/
structure MField where
  name : String
  type : Int
  typeName : String
  length : Int
  precision : Int
deriving DecidableEq

/-- `QgsField.isDateOrTime`: QVariant tags Date (14), Time (15), DateTime (16). -/
def MField.isDateOrTime (f : MField) : Bool :=
  f.type == 14 || f.type == 15 || f.type == 16

/-- A `QgsMapLayer` as observed by the dialog: its name, its Python class
(`isRaster = true` for `QgsRasterLayer`, `false` for `QgsVectorLayer`), its
`wkbType()` code, its `fields().toList()` and its attribute table
(`getFeatures()`, one row of attribute values per feature, column `j` holding
the value of field `j`). -/
structure Layer where
  name : String
  isRaster : Bool
  wkbType : Int
  fields : List MField
  featureAttrs : List (List AttrValue)
deriving DecidableEq

/-- `QgsVectorLayer()` — the empty vector layer built by `filter_layer`. -/
def QgsVectorLayer_empty : Layer := ⟨"", false, 0, [], []⟩

/-- `QgsRasterLayer()` — the empty raster layer built by `filter_layer`. -/
def QgsRasterLayer_empty : Layer := ⟨"", true, 0, [], []⟩

/-! ### `filter_layer` and `generate_layer_model` (source lines 188-296)

The constructor parameters `layer_matches`, `layer_type` and `geometry_type`
default to `set()` in the source; a supplied `layer_type` is a string, a
supplied `geometry_type` an int, and `layer_matches` a dict whose keys are
iterated.  We model the two optional scalars as `Option` (with `none` for the
`set()` default) and `layer_matches` as the list of its keys. -/

/-- `filter_layer` (lines 188-196): dictionary lookup
`{'vector': QgsVectorLayer(), 'raster': QgsRasterLayer()}[self.layer_type.lower()]`;
a `KeyError` (any other string) is modelled as `none`. -/
def filter_layer (layer_type : String) : Option Layer :=
  if pyLower layer_type = "vector" then some QgsVectorLayer_empty
  else if pyLower layer_type = "raster" then some QgsRasterLayer_empty
  else none

/-- `len(self.layer_type)`: the default `set()` has length 0. -/
def layerTypeLen : Option String → Nat
  | none => 0
  | some s => s.length

/-- `self.geometry_type != 0` at line 277: the default `set()` compares
unequal to `0` in Python, a supplied int is compared numerically. -/
def geomNonZero : Option Int → Bool
  | none => true
  | some g => g != 0

/-- `layer.wkbType() == self.geometry_type` at line 278: an int never equals
the default `set()`. -/
def geomEqB (w : Int) : Option Int → Bool
  | none => false
  | some g => w == g

/-- `generate_layer_model` (lines 267-292).  Returns the *excluded* layers
(`layers.difference(allowed_layers)`); `none` models the `KeyError` raised by
`filter_layer` on an unrecognized `layer_type` string. -/
def generate_layer_model (layer_matches : List String) (layer_type : Option String)
    (geometry_type : Option Int) (layers : List Layer) : Option (List Layer) :=
  -- lines 274-275: type_layers = {layer for layer in layers if type(layer) == type(self.filter_layer())}
  let typeLayersOpt : Option (List Layer) :=
    if layerTypeLen layer_type ≠ 0 then
      match filter_layer (layer_type.getD "") with
      | none => none
      | some empt => some (layers.filter (fun l => l.isRaster == empt.isRaster))
    else some []
  match typeLayersOpt with
  | none => none
  | some type_layers =>
    -- lines 277-278
    let geom_type_layers : List Layer :=
      if geomNonZero geometry_type then
        layers.filter (fun l => !l.isRaster && geomEqB l.wkbType geometry_type)
      else []
    -- lines 280-284: key.lower() in layer.name().lower()
    let name_layers : List Layer :=
      if layer_matches.length ≠ 0 then
        layers.filter (fun l =>
          layer_matches.any (fun key => strContainsB (pyLower l.name) (pyLower key)))
      else []
    -- lines 286-289: if len(layer_type) == len(layer_matches) and geometry_type == set()
    let triple :=
      if layerTypeLen layer_type = layer_matches.length ∧ geometry_type = (none : Option Int)
      then (layers, layers, layers)
      else (type_layers, geom_type_layers, name_layers)
    -- lines 291-292
    let allowed_layers :=
      layers.filter (fun l => decide (l ∈ triple.1 ∨ l ∈ triple.2.1 ∨ l ∈ triple.2.2))
    some (layers.filter (fun l => decide (l ∉ allowed_layers)))

/-! ### `generate_field_model` (source lines 214-265) -/

/-- `QgsFields.append`: appending a field whose name is already present is
rejected (returns `False` in PyQGIS), leaving the collection unchanged. -/
def fieldsAppend (fs : List MField) (f : MField) : List MField :=
  if fs.any (fun g => g.name == f.name) then fs else fs ++ [f]

/-- The body of the per-feature loop, identical at lines 228-243 and 247-262:
re-tag a supported field (`QVariant.Int = 2`, `QVariant.String = 10`,
`QVariant.Date = 14`, `QVariant.Double = 6`) and append it via
`QgsFields.append`.  The bookkeeping on the local `temp_features` object
(`setFields`/`setAttribute`) has no effect on the returned fields and is not
modelled. -/
def append_typed_field (temp_fields : List MField) (field : MField) : List MField :=
  if field.type = 2 ∨ field.type = 4 then
    fieldsAppend temp_fields { field with type := 2 }
  else if field.type = 10 then
    fieldsAppend temp_fields { field with type := 10 }
  else if field.type = 14 then
    fieldsAppend temp_fields { field with type := 14 }
  else if field.type = 6 then
    fieldsAppend temp_fields { field with type := 6 }
  else temp_fields

/-- `generate_field_model` (lines 214-265).  `field_matches` is `None` or the
list of keys of the supplied dict (line 224, `self.field_matches.keys()`).
Note line 226 compares `key.lower() == field.name().lower()` — equality. -/
def generate_field_model (field_matches : Option (List String)) (layer : Layer) :
    List MField :=
  -- line 219: type(layer) != type(QgsRasterLayer())
  if !layer.isRaster then
    let features_list := layer.featureAttrs
    let fields_list := layer.fields
    match field_matches with
    | some keys =>
        keys.foldl (fun tf key =>
          fields_list.foldl (fun tf field =>
            if pyLower key = pyLower field.name then
              features_list.foldl (fun tf _feature => append_typed_field tf field) tf
            else tf) tf) []
    | none =>
        fields_list.foldl (fun tf field =>
          features_list.foldl (fun tf _feature => append_typed_field tf field) tf) []
  else []

/-- The supported QVariant type tags (lines 228-240): Int, LongLong, String,
Date, Double. -/
def supportedType (t : Int) : Prop := t = 2 ∨ t = 4 ∨ t = 10 ∨ t = 14 ∨ t = 6

instance : DecidablePred supportedType := fun t =>
  inferInstanceAs (Decidable (t = 2 ∨ t = 4 ∨ t = 10 ∨ t = 14 ∨ t = 6))

/-- A field of the given name appears in a field collection. -/
def hasName (fs : List MField) (n : String) : Prop := ∃ f ∈ fs, f.name = n

instance : Decidable (hasName fs n) :=
  inferInstanceAs (Decidable (∃ f ∈ fs, f.name = n))

/-! ### Sorting of attribute values (Python `list.sort()`) -/

/-- Python `<` on `QDate`: chronological, i.e. lexicographic on (year, month, day). -/
def dateLt (a b : DateV) : Prop :=
  a.year < b.year ∨ (a.year = b.year ∧
    (a.month < b.month ∨ (a.month = b.month ∧ a.day < b.day)))

instance : DecidableRel dateLt := fun a b =>
  inferInstanceAs (Decidable (a.year < b.year ∨ (a.year = b.year ∧
    (a.month < b.month ∨ (a.month = b.month ∧ a.day < b.day)))))

/-- Python `<` on attribute values.  Within one field the values are
homogeneous and the first three clauses apply; comparing values of different
kinds raises `TypeError` in Python and is totalized here by an arbitrary
rank order (it is never exercised by a well-typed layer). -/
def attrLt : AttrValue → AttrValue → Prop
  | .vInt i, .vInt j => i < j
  | .vInt _, .vStr _ => True
  | .vInt _, .vDate _ => True
  | .vStr _, .vInt _ => False
  | .vStr s, .vStr t => strLt s t
  | .vStr _, .vDate _ => True
  | .vDate _, .vInt _ => False
  | .vDate _, .vStr _ => False
  | .vDate d, .vDate e => dateLt d e

instance : DecidableRel attrLt
  | .vInt i, .vInt j => inferInstanceAs (Decidable (i < j))
  | .vInt _, .vStr _ => isTrue trivial
  | .vInt _, .vDate _ => isTrue trivial
  | .vStr _, .vInt _ => isFalse (fun h => h)
  | .vStr s, .vStr t => inferInstanceAs (Decidable (strLt s t))
  | .vStr _, .vDate _ => isTrue trivial
  | .vDate _, .vInt _ => isFalse (fun h => h)
  | .vDate _, .vStr _ => isFalse (fun h => h)
  | .vDate d, .vDate e => inferInstanceAs (Decidable (dateLt d e))

/-- The (non-strict) order `list.sort()` establishes on attribute values. -/
def attrLe (a b : AttrValue) : Prop := attrLt a b ∨ a = b

instance : DecidableRel attrLe := fun a b =>
  inferInstanceAs (Decidable (attrLt a b ∨ a = b))

/-- Python `str(value)` at line 212: ints and strings render canonically; a
date never reaches this branch on a well-typed layer (the date branch is taken
instead) and is rendered arbitrarily. -/
def attrToStr : AttrValue → String
  | .vInt i => toString i
  | .vStr s => s
  | .vDate _ => ""

/-- `QDate.toString(Qt.ISODate)`: "yyyy-MM-dd", zero-padded (`QDate` carries
years 0-9999; wider values cannot arise from an ISO-formatted date field). -/
def pad2chars (n : Nat) : List Char :=
  [Nat.digitChar (n / 10 % 10), Nat.digitChar (n % 10)]

def pad4chars (n : Nat) : List Char :=
  [Nat.digitChar (n / 1000 % 10), Nat.digitChar (n / 100 % 10),
   Nat.digitChar (n / 10 % 10), Nat.digitChar (n % 10)]

def DateV.toISO (d : DateV) : String :=
  String.mk (pad4chars d.year ++ '-' :: (pad2chars d.month ++ '-' :: pad2chars d.day))

/-- The list comprehension at line 206:
`[value.toString(Qt.ISODate) for value in ...]`; a non-date value has no
`toString(Qt.ISODate)` and raises (`none`). -/
def isoMap : List AttrValue → Option (List String)
  | [] => some []
  | v :: vs =>
      match v with
      | .vDate d =>
          match isoMap vs with
          | some ss => some (d.toISO :: ss)
          | none => none
      | .vInt _ => none
      | .vStr _ => none

/-! ### Dialog session model (constructor lines 69-137, handlers lines 140-185)

The widget state the handlers read and write: the layer combo index (0 is the
`"---- Please select a layer ----"` placeholder), the `Ok` button and the
`YesToAll|NoToAll` button box enablement, the field combo contents and current
field name, and the checkable value combo items and checked items. -/

structure Config where
  field_matches : Option (List String)
  /-- The project layers offered by the layer combo after the exclusion list
  (`setExceptedLayerList`) is applied, in combo order after the placeholder. -/
  availableLayers : List Layer

structure DialogState where
  layerIndex : Nat
  okEnabled : Bool
  selectionEnabled : Bool
  fieldsSet : List MField
  currentFieldName : String
  featureItems : List String
  checkedItems : List String
deriving DecidableEq

/-- The state after `__init__` (lines 90-113): placeholder selected, both the
selection buttons and the `Ok` button disabled, field and value combos empty. -/
def initState : DialogState :=
  { layerIndex := 0, okEnabled := false, selectionEnabled := false,
    fieldsSet := [], currentFieldName := "", featureItems := [], checkedItems := [] }

/-- `accepted_layer` (lines 299-301): `layer_wdgt.currentLayer()`, `None` on
the placeholder entry. -/
def accepted_layer (cfg : Config) (st : DialogState) : Option Layer :=
  if st.layerIndex = 0 then none else cfg.availableLayers[st.layerIndex - 1]?

/-- `QgsFields.indexFromName`: index of the field with the given name, -1 if absent. -/
def indexFromName (fs : List MField) (n : String) : Int :=
  match fs.findIdx? (fun f => f.name == n) with
  | some i => (i : Int)
  | none => -1

/-- `accepted_field` (lines 303-309): `fields.field(fields.indexFromName(...))`
with the `KeyError` of an out-of-range index caught and turned into `None`. -/
def accepted_field (st : DialogState) : Option MField :=
  let i := indexFromName st.fieldsSet st.currentFieldName
  if i < 0 then none else st.fieldsSet[i.toNat]?

/-- `QgsVectorLayer.uniqueValues(field_index)`: the distinct values of the
given column over all features; an invalid index yields the empty set. -/
def uniqueValues (layer : Layer) (idx : Int) : List AttrValue :=
  if idx < 0 then []
  else (layer.featureAttrs.filterMap (fun row => row[idx.toNat]?)).dedup

/-- `generate_feature_model` (lines 198-212).  `.error ()` models the
exceptions the bare `except` at line 164 catches: `accepted_layer()` returning
`None` (line 201 raises), `accepted_field()` returning `None` (line 203
raises), or `toString(Qt.ISODate)` on a non-date value (line 206 raises).
In the date branch the values are rendered to ISO strings first and the
*strings* are sorted; otherwise the raw values are sorted and then rendered
with `str`. -/
def generate_feature_model (cfg : Config) (st : DialogState) :
    Except Unit (List String) :=
  match accepted_layer cfg st with
  | none => .error ()
  | some layer =>
    match accepted_field st with
    | none => .error ()
    | some field =>
      let field_index := indexFromName layer.fields field.name
      if field.isDateOrTime then
        match isoMap (uniqueValues layer field_index) with
        | none => .error ()
        | some values => .ok (List.insertionSort strLe values)
      else
        .ok ((List.insertionSort attrLe (uniqueValues layer field_index)).map attrToStr)

/-- `on_selected_field` (lines 157-166): clear the value combo, rebuild it
from `generate_feature_model()` and enable the bulk buttons; on any exception
disable the bulk buttons and clear again.  The handler is a total function:
the bare `except` lets no exception escape to the caller. -/
def on_selected_field (cfg : Config) (st : DialogState) : DialogState :=
  -- line 159 clears the value combo first; `addItems` then fills the cleared
  -- (empty) combo, so the resulting items are exactly `attribute_values`
  match generate_feature_model cfg { st with featureItems := [], checkedItems := [] } with
  | .ok attribute_values =>
      { st with featureItems := attribute_values, checkedItems := [],
                selectionEnabled := true }
  | .error _ =>
      { st with featureItems := [], checkedItems := [],
                selectionEnabled := false }

/-- `on_selected_layer` (lines 168-181).  With a real layer selected: enable
`Ok`, rebuild the field combo from `generate_field_model`, clear the value
combo, and — `feature_wdgt.count()` being 0 right after `clear()` — disable
the bulk buttons.  On the placeholder: disable `Ok` and the bulk buttons and
empty both downstream combos.  (The `currentLayer() = none` branch is
unreachable for valid combo indices; the model leaves the state unchanged
there.) -/
def on_selected_layer (cfg : Config) (st : DialogState) : DialogState :=
  if st.layerIndex ≠ 0 then
    match accepted_layer cfg st with
    | some layer =>
        { st with okEnabled := true,
                  fieldsSet := generate_field_model cfg.field_matches layer,
                  featureItems := [], checkedItems := [],
                  selectionEnabled := false }
    | none => st
  else
    { st with okEnabled := false, selectionEnabled := false,
              fieldsSet := [], featureItems := [], checkedItems := [] }

/-- The user/UI events of one modal session.  `setCurrentIndex` /
`setCurrentField` emit the corresponding Qt change signals, so each event runs
the connected handler; `resetRejected` is the Cancel/Escape path
(`confirm_button.rejected` → `reject` plus `on_reset_layer`, lines 120-121 and
182-185), which programmatically moves both combos back to position 0 and
thereby fires both change signals. -/
inductive Ev where
  | selectLayer (i : Nat)
  | selectField (name : String)
  | resetRejected
  | selectAllEv
  | deselectAllEv

/-- One step of the event loop. A layer choice outside the combo range cannot
occur and is ignored. -/
def step (cfg : Config) (st : DialogState) : Ev → DialogState
  | .selectLayer i =>
      if i < cfg.availableLayers.length + 1 then
        on_selected_layer cfg { st with layerIndex := i }
      else st
  | .selectField n => on_selected_field cfg { st with currentFieldName := n }
  | .resetRejected =>
      let st1 := on_selected_layer cfg { st with layerIndex := 0 }
      on_selected_field cfg { st1 with currentFieldName := "" }
  | .selectAllEv =>
      -- on_select_all (lines 153-155): selectAllOptions checks every item
      { st with checkedItems := st.featureItems }
  | .deselectAllEv =>
      -- on_deselect_all (lines 149-151)
      { st with checkedItems := [] }

/-- The dialog state reached from construction by a sequence of events. -/
def run (cfg : Config) (evs : List Ev) : DialogState :=
  evs.foldl (step cfg) initState

/-- `accepted_features` (lines 311-317). -/
def accepted_features (st : DialogState) : Option (List String) :=
  if st.checkedItems.length > 0 then some st.checkedItems else none

/-! ### Spec-side predicate for claim C1

The spec reads the field filter keys as case-insensitive *substrings* of field
names, with the same `in` semantics the source uses for layer names. -/

/-- `key` occurs case-insensitively within `name`. -/
def nameMatchesKeySubstr (name key : String) : Prop :=
  strContainsB (pyLower name) (pyLower key) = true

instance : Decidable (nameMatchesKeySubstr name key) :=
  inferInstanceAs (Decidable (strContainsB (pyLower name) (pyLower key) = true))

/-! ### Statement helpers for the attribute-value enumeration -/

/-- How `generate_feature_model` renders one attribute value of the selected
field: `toString(Qt.ISODate)` at line 206 for date/time fields, `str(value)`
at line 212 otherwise.  (The non-date fallback in the date branch is dead
under a successful enumeration.) -/
def renderValue (field : MField) (v : AttrValue) : String :=
  if field.isDateOrTime then
    match v with
    | .vDate d => d.toISO
    | _ => ""
  else attrToStr v

/-- The value ranges a `QDate` guarantees: years 0-9999, months and days
two-digit. -/
def attrValid : AttrValue → Prop
  | .vDate d => d.year ≤ 9999 ∧ d.month ≤ 99 ∧ d.day ≤ 99
  | _ => True

instance : DecidablePred attrValid
  | .vDate d =>
      inferInstanceAs (Decidable (d.year ≤ 9999 ∧ d.month ≤ 99 ∧ d.day ≤ 99))
  | .vInt _ => isTrue trivial
  | .vStr _ => isTrue trivial

/-! ## Theorems -/

/-! ### Layer model: claims C2, C3, C9 -/

lemma allowed_all_of_first (layers : List Layer) (p2 p3 : Layer → Prop)
    [DecidablePred p2] [DecidablePred p3] :
    layers.filter (fun l => decide (l ∈ layers ∨ p2 l ∨ p3 l)) = layers := by
  apply List.filter_eq_self.mpr
  intro a ha
  simp [ha]

lemma excluded_empty_of_superset (layers zs : List Layer) (h : ∀ l ∈ layers, l ∈ zs) :
    layers.filter (fun l => decide (l ∉ zs)) = [] := by
  apply List.filter_eq_nil_iff.mpr
  intro a ha
  simp [h a ha]

/-- C3: all three filters left at their defaults (`set()` each) make the
exclusion set empty — every project layer is offered. -/
theorem C3_default_filters_no_exclusion (layers : List Layer) :
    generate_layer_model [] none none layers = some [] := by
  simp only [generate_layer_model, layerTypeLen, ne_eq, not_true_eq_false, if_false,
    List.length_nil, and_self, if_true]
  rw [allowed_all_of_first layers (fun l => l ∈ layers) (fun l => l ∈ layers)]
  rw [excluded_empty_of_superset layers layers (fun l hl => hl)]

lemma filter_layer_empty_string : filter_layer "" = none := by decide

lemma string_eq_empty_of_length_zero (s : String) (h : s.length = 0) : s = "" := by
  cases s with
  | mk data =>
    cases data with
    | nil => rfl
    | cons c cs => simp [String.length] at h

/-- C9: with the geometry filter at its default, a layer-type string and a
name-match collection of equal lengths trip the condition at line 286, which
declares every project layer allowed: the exclusion set is empty and both
supplied filters have no effect.  (A supplied layer-type string is one the
`filter_layer` dictionary recognizes, i.e. 'vector' or 'raster' up to case.) -/
theorem C9_equal_length_quirk (layers : List Layer) (ts : String) (keys : List String)
    (empt : Layer) (hf : filter_layer ts = some empt) (hlen : ts.length = keys.length) :
    generate_layer_model keys (some ts) none layers = some [] := by
  have hne : ¬ ts.length = 0 := by
    intro h0
    rw [string_eq_empty_of_length_zero ts h0, filter_layer_empty_string] at hf
    exact Option.noConfusion hf
  simp only [generate_layer_model, layerTypeLen, ne_eq, Option.getD_some, hf, hne,
    not_false_eq_true, if_true, hlen]
  simp only [and_self, and_true, if_true, reduceIte]
  rw [allowed_all_of_first layers (fun l => l ∈ layers) (fun l => l ∈ layers)]
  rw [excluded_empty_of_superset layers layers (fun l hl => hl)]
  by_cases hk : keys.length = 0
  · simp [hk]
  · simp [hk]

/-- C9 witness: 'vector' (6 characters) together with 6 name substrings and no
geometry filter: the raster layer that the type filter alone would exclude is
still offered. -/
theorem C9_witness :
    generate_layer_model ["a", "b", "c", "d", "e", "f"] (some "vector") none
      [⟨"Sat", true, 0, [], []⟩] = some [] :=
  C9_equal_length_quirk [⟨"Sat", true, 0, [], []⟩] "vector" ["a", "b", "c", "d", "e", "f"]
    QgsVectorLayer_empty (by decide) (by decide)

/-- C2: when a layer-type filter and a geometry-type filter are both supplied
(name filter at its default), the layers offered — the complement of the
computed exclusion set — are exactly the *union* of the layers matching the
type filter and the layers matching the geometry filter. -/
theorem C2_type_geom_union (layers : List Layer) (ts : String) (g : Int) (empt : Layer)
    (hf : filter_layer ts = some empt) (hlen : ¬ ts.length = 0) (hg : ¬ g = 0) :
    ∃ excluded, generate_layer_model [] (some ts) (some g) layers = some excluded ∧
      ∀ l ∈ layers, (l ∉ excluded ↔
        (l.isRaster = empt.isRaster ∨ (l.isRaster = false ∧ l.wkbType = g))) := by
  simp only [generate_layer_model, layerTypeLen, ne_eq, Option.getD_some, hf, hlen,
    not_false_eq_true, if_true, List.length_nil, geomNonZero, geomEqB]
  refine ⟨_, rfl, ?_⟩
  intro l hl
  simp [List.mem_filter, hl, hlen, hg, bne_iff_ne]
  tauto

/-- C2 witness: a vector point layer and a raster layer, type filter 'vector',
geometry filter 1. -/
theorem C2_witness :
    ∃ excluded,
      generate_layer_model [] (some "vector") (some 1)
        [⟨"Roads", false, 1, [], []⟩, ⟨"Sat", true, 0, [], []⟩] = some excluded ∧
      ∀ l ∈ ([⟨"Roads", false, 1, [], []⟩, ⟨"Sat", true, 0, [], []⟩] : List Layer),
        (l ∉ excluded ↔
          (l.isRaster = QgsVectorLayer_empty.isRaster ∨
            (l.isRaster = false ∧ l.wkbType = 1))) :=
  C2_type_geom_union [⟨"Roads", false, 1, [], []⟩, ⟨"Sat", true, 0, [], []⟩]
    "vector" 1 QgsVectorLayer_empty (by decide) (by decide) (by decide)

/-! ### Field model: claims C1, C6, C10 -/

lemma hasName_fieldsAppend (fs : List MField) (f : MField) (n : String) :
    hasName (fieldsAppend fs f) n ↔ hasName fs n ∨ f.name = n := by
  unfold fieldsAppend
  by_cases h : fs.any (fun g => g.name == f.name) = true
  · rw [if_pos h]
    constructor
    · exact fun hx => Or.inl hx
    · rintro (hx | hx)
      · exact hx
      · obtain ⟨g, hg, hgn⟩ := List.any_eq_true.mp h
        exact ⟨g, hg, by rw [eq_of_beq hgn, hx]⟩
  · rw [if_neg h]
    unfold hasName
    simp only [List.mem_append, List.mem_singleton]
    constructor
    · rintro ⟨x, hx | hx, hxn⟩
      · exact Or.inl ⟨x, hx, hxn⟩
      · subst hx
        exact Or.inr hxn
    · rintro (⟨x, hx, hxn⟩ | hx)
      · exact ⟨x, Or.inl hx, hxn⟩
      · exact ⟨f, Or.inr rfl, hx⟩

lemma hasName_append_typed_field (fs : List MField) (field : MField) (n : String) :
    hasName (append_typed_field fs field) n ↔
      hasName fs n ∨ (supportedType field.type ∧ field.name = n) := by
  unfold append_typed_field supportedType
  by_cases h24 : field.type = 2 ∨ field.type = 4
  · simp only [h24, if_true, hasName_fieldsAppend]
    tauto
  · simp only [h24, if_false]
    by_cases h10 : field.type = 10
    · simp only [h10, if_true, hasName_fieldsAppend]
      tauto
    · simp only [h10, if_false]
      by_cases h14 : field.type = 14
      · simp only [h14, if_true, hasName_fieldsAppend]
        tauto
      · simp only [h14, if_false]
        by_cases h6 : field.type = 6
        · simp only [h6, if_true, hasName_fieldsAppend]
          tauto
        · simp only [h6, if_false]
          tauto

lemma hasName_feature_fold (feats : List (List AttrValue)) (fs : List MField)
    (field : MField) (n : String) :
    hasName (feats.foldl (fun tf _feature => append_typed_field tf field) fs) n ↔
      hasName fs n ∨ (feats ≠ [] ∧ supportedType field.type ∧ field.name = n) := by
  induction feats generalizing fs with
  | nil => simp
  | cons r rs ih =>
    rw [List.foldl_cons, ih, hasName_append_typed_field]
    constructor
    · rintro ((h | h) | h)
      · exact Or.inl h
      · exact Or.inr ⟨List.cons_ne_nil r rs, h⟩
      · exact Or.inr ⟨List.cons_ne_nil r rs, h.2⟩
    · rintro (h | ⟨_, h⟩)
      · exact Or.inl (Or.inl h)
      · exact Or.inl (Or.inr h)

lemma hasName_fields_fold_matched (fields : List MField) (feats : List (List AttrValue))
    (key : String) (fs : List MField) (n : String) :
    hasName (fields.foldl (fun tf field =>
        if pyLower key = pyLower field.name then
          feats.foldl (fun tf _feature => append_typed_field tf field) tf
        else tf) fs) n ↔
      hasName fs n ∨ ∃ field ∈ fields, pyLower key = pyLower field.name ∧
        feats ≠ [] ∧ supportedType field.type ∧ field.name = n := by
  induction fields generalizing fs with
  | nil => simp
  | cons f fl ih =>
    rw [List.foldl_cons, ih]
    by_cases hc : pyLower key = pyLower f.name
    · rw [if_pos hc, hasName_feature_fold]
      constructor
      · rintro ((h | h) | ⟨field, hf, h⟩)
        · exact Or.inl h
        · exact Or.inr ⟨f, List.mem_cons_self f fl, hc, h⟩
        · exact Or.inr ⟨field, List.mem_cons_of_mem f hf, h⟩
      · rintro (h | ⟨field, hf, hk, h⟩)
        · exact Or.inl (Or.inl h)
        · rcases List.mem_cons.mp hf with rfl | hf2
          · exact Or.inl (Or.inr h)
          · exact Or.inr ⟨field, hf2, hk, h⟩
    · rw [if_neg hc]
      constructor
      · rintro (h | ⟨field, hf, h⟩)
        · exact Or.inl h
        · exact Or.inr ⟨field, List.mem_cons_of_mem f hf, h⟩
      · rintro (h | ⟨field, hf, hk, h⟩)
        · exact Or.inl h
        · rcases List.mem_cons.mp hf with rfl | hf2
          · exact absurd hk hc
          · exact Or.inr ⟨field, hf2, hk, h⟩

lemma hasName_keys_fold (keys : List String) (fields : List MField)
    (feats : List (List AttrValue)) (fs : List MField) (n : String) :
    hasName (keys.foldl (fun tf key =>
        fields.foldl (fun tf field =>
          if pyLower key = pyLower field.name then
            feats.foldl (fun tf _feature => append_typed_field tf field) tf
          else tf) tf) fs) n ↔
      hasName fs n ∨ ∃ key ∈ keys, ∃ field ∈ fields,
        pyLower key = pyLower field.name ∧ feats ≠ [] ∧
        supportedType field.type ∧ field.name = n := by
  induction keys generalizing fs with
  | nil => simp
  | cons k ks ih =>
    rw [List.foldl_cons, ih, hasName_fields_fold_matched]
    constructor
    · rintro ((h | ⟨field, hf, h⟩) | ⟨key, hk, h⟩)
      · exact Or.inl h
      · exact Or.inr ⟨k, List.mem_cons_self k ks, field, hf, h⟩
      · exact Or.inr ⟨key, List.mem_cons_of_mem k hk, h⟩
    · rintro (h | ⟨key, hk, field, hf, h⟩)
      · exact Or.inl (Or.inl h)
      · rcases List.mem_cons.mp hk with rfl | hk2
        · exact Or.inl (Or.inr ⟨field, hf, h⟩)
        · exact Or.inr ⟨key, hk2, field, hf, h⟩

/-- Membership (by name) in the field model built with a field filter. -/
lemma hasName_field_model_some (keys : List String) (layer : Layer) (n : String)
    (hv : layer.isRaster = false) :
    hasName (generate_field_model (some keys) layer) n ↔
      ∃ field ∈ layer.fields, (∃ key ∈ keys, pyLower key = pyLower field.name) ∧
        layer.featureAttrs ≠ [] ∧ supportedType field.type ∧ field.name = n := by
  unfold generate_field_model
  rw [hv]
  simp only [Bool.not_false, if_true]
  rw [hasName_keys_fold]
  simp only [hasName, List.not_mem_nil, false_and, exists_false, false_or]
  constructor
  · rintro ⟨key, hk, field, hf, hm, hne, hsup, hname⟩
    exact ⟨field, hf, ⟨key, hk, hm⟩, hne, hsup, hname⟩
  · rintro ⟨field, hf, ⟨key, hk, hm⟩, hne, hsup, hname⟩
    exact ⟨key, hk, field, hf, hm, hne, hsup, hname⟩

lemma hasName_fields_fold_all (fields : List MField) (feats : List (List AttrValue))
    (fs : List MField) (n : String) :
    hasName (fields.foldl (fun tf field =>
        feats.foldl (fun tf _feature => append_typed_field tf field) tf) fs) n ↔
      hasName fs n ∨ ∃ field ∈ fields,
        feats ≠ [] ∧ supportedType field.type ∧ field.name = n := by
  induction fields generalizing fs with
  | nil => simp
  | cons f fl ih =>
    rw [List.foldl_cons, ih, hasName_feature_fold]
    constructor
    · rintro ((h | h) | ⟨field, hf, h⟩)
      · exact Or.inl h
      · exact Or.inr ⟨f, List.mem_cons_self f fl, h⟩
      · exact Or.inr ⟨field, List.mem_cons_of_mem f hf, h⟩
    · rintro (h | ⟨field, hf, h⟩)
      · exact Or.inl (Or.inl h)
      · rcases List.mem_cons.mp hf with rfl | hf2
        · exact Or.inl (Or.inr h)
        · exact Or.inr ⟨field, hf2, h⟩

/-- Membership (by name) in the field model built without a field filter. -/
lemma hasName_field_model_none (layer : Layer) (n : String)
    (hv : layer.isRaster = false) :
    hasName (generate_field_model none layer) n ↔
      ∃ field ∈ layer.fields,
        layer.featureAttrs ≠ [] ∧ supportedType field.type ∧ field.name = n := by
  unfold generate_field_model
  rw [hv]
  simp only [Bool.not_false, if_true]
  rw [hasName_fields_fold_all]
  simp [hasName]

/-- C1 as stated is false: line 226 compares `key.lower() == field.name().lower()`
for *equality*, so the key "stat", a proper case-insensitive substring of the
supported string field "status", exposes no field at all; and a field of a
feature-less layer never enters the model even when a key equals its name. -/
theorem C1_counterexample :
    ¬ (hasName (generate_field_model (some ["stat"])
          ⟨"L", false, 1, [⟨"status", 10, "text", 0, 0⟩], [[.vStr "x"]]⟩) "status" ↔
        (supportedType 10 ∧ ∃ key ∈ (["stat"] : List String),
          nameMatchesKeySubstr "status" key)) ∧
    ¬ (hasName (generate_field_model (some ["id"])
          ⟨"L2", false, 1, [⟨"id", 2, "int", 0, 0⟩], []⟩) "id" ↔
        (supportedType 2 ∧ ∃ key ∈ (["id"] : List String),
          nameMatchesKeySubstr "id" key)) := by
  decide

/-- C1 amended: with a non-`None` field filter, a field of the selected vector
layer appears in the field selector exactly when the layer has at least one
feature, the field's type tag is supported, and the field's *name equals* some
key of the mapping case-insensitively (not mere substring containment). -/
theorem C1_amended_field_membership (keys : List String) (layer : Layer) (field : MField)
    (hv : layer.isRaster = false) (hmem : field ∈ layer.fields)
    (hnd : (layer.fields.map MField.name).Nodup) :
    hasName (generate_field_model (some keys) layer) field.name ↔
      (layer.featureAttrs ≠ [] ∧ supportedType field.type ∧
        ∃ key ∈ keys, pyLower key = pyLower field.name) := by
  rw [hasName_field_model_some keys layer field.name hv]
  constructor
  · rintro ⟨field0, hf0, hkeys, hne, hsup, hname⟩
    have heq : field0 = field := List.inj_on_of_nodup_map hnd hf0 hmem hname
    subst heq
    exact ⟨hne, hsup, hkeys⟩
  · rintro ⟨hne, hsup, hkeys⟩
    exact ⟨field, hmem, hkeys, hne, hsup, rfl⟩

/-- C1 witness: key "STATUS" equals field "status" up to case; the field shows. -/
theorem C1_witness :
    hasName (generate_field_model (some ["STATUS"])
        ⟨"L", false, 1, [⟨"status", 10, "text", 0, 0⟩], [[.vStr "x"]]⟩) "status" ↔
      (([[.vStr "x"]] : List (List AttrValue)) ≠ [] ∧ supportedType 10 ∧
        ∃ key ∈ (["STATUS"] : List String), pyLower key = pyLower "status") :=
  C1_amended_field_membership ["STATUS"]
    ⟨"L", false, 1, [⟨"status", 10, "text", 0, 0⟩], [[.vStr "x"]]⟩
    ⟨"status", 10, "text", 0, 0⟩ (by decide) (by decide) (by decide)

/-- C6: a field whose QVariant type tag is outside the supported set
{2, 4, 10, 14, 6} never appears in the produced field model, whatever the
field-name filter. -/
theorem C6_unsupported_type_excluded (fm : Option (List String)) (layer : Layer)
    (field : MField) (hmem : field ∈ layer.fields)
    (hnd : (layer.fields.map MField.name).Nodup)
    (hns : ¬ supportedType field.type) :
    ¬ hasName (generate_field_model fm layer) field.name := by
  by_cases hv : layer.isRaster = true
  · unfold generate_field_model
    rw [hv]
    simp [hasName]
  · have hv2 : layer.isRaster = false := by
      simpa using hv
    cases fm with
    | some keys =>
        rw [hasName_field_model_some _ _ _ hv2]
        rintro ⟨field0, hf0, _, _, hsup, hname⟩
        have heq : field0 = field := List.inj_on_of_nodup_map hnd hf0 hmem hname
        exact hns (heq ▸ hsup)
    | none =>
        rw [hasName_field_model_none _ _ hv2]
        rintro ⟨field0, hf0, _, hsup, hname⟩
        have heq : field0 = field := List.inj_on_of_nodup_map hnd hf0 hmem hname
        exact hns (heq ▸ hsup)

/-- C6 witness: a Bool field (tag 1) with features present and no name filter
still never shows. -/
theorem C6_witness :
    ¬ hasName (generate_field_model none
        ⟨"L", false, 1, [⟨"flag", 1, "bool", 0, 0⟩], [[.vInt 0]]⟩) "flag" :=
  C6_unsupported_type_excluded none
    ⟨"L", false, 1, [⟨"flag", 1, "bool", 0, 0⟩], [[.vInt 0]]⟩
    ⟨"flag", 1, "bool", 0, 0⟩ (by decide) (by decide) (by decide)

lemma foldl_keep {α β : Type} (l : List β) (a : α) :
    l.foldl (fun acc _ => acc) a = a := by
  induction l generalizing a with
  | nil => rfl
  | cons x xs ih => rw [List.foldl_cons]; exact ih a

/-- C10: a vector layer with zero features yields an empty field model — the
per-feature inner loop never runs, so no field is ever appended. -/
theorem C10_featureless_empty (fm : Option (List String)) (layer : Layer)
    (hv : layer.isRaster = false) (hfe : layer.featureAttrs = []) :
    generate_field_model fm layer = [] := by
  unfold generate_field_model
  rw [hv, hfe]
  simp only [Bool.not_false, if_true]
  cases fm with
  | some keys =>
      simp only [List.foldl_nil, ite_self]
      simp [foldl_keep]
  | none =>
      simp only [List.foldl_nil]
      simp [foldl_keep]

/-- C10 witness: a featureless layer with a supported int field and no name
filter produces an empty model. -/
theorem C10_witness :
    generate_field_model none ⟨"E", false, 1, [⟨"a", 2, "int", 0, 0⟩], []⟩ = [] :=
  C10_featureless_empty none ⟨"E", false, 1, [⟨"a", 2, "int", 0, 0⟩], []⟩
    (by decide) (by decide)

/-! ### Dialog handlers: claims C4, C5, C8 -/

/-- `generate_feature_model` reads only the selectors (layer index, field
combo contents, current field name), so clearing the value combo first
(line 159) does not change its outcome. -/
lemma gfm_only_selectors (cfg : Config) (s1 s2 : DialogState)
    (h1 : s1.layerIndex = s2.layerIndex) (h2 : s1.fieldsSet = s2.fieldsSet)
    (h3 : s1.currentFieldName = s2.currentFieldName) :
    generate_feature_model cfg s1 = generate_feature_model cfg s2 := by
  unfold generate_feature_model accepted_layer accepted_field indexFromName
  rw [h1, h2, h3]

/-- C5: whenever computing the attribute-value list fails — no layer selected,
no field resolvable, or a retrieval error — `on_selected_field` leaves the
value list empty and the bulk select/deselect buttons disabled.  The handler
is a total function of the state: the bare `except` at line 164 lets no
exception propagate to the caller. -/
theorem C5_failure_degrades (cfg : Config) (st : DialogState)
    (h : generate_feature_model cfg st = .error ()) :
    (on_selected_field cfg st).featureItems = [] ∧
      (on_selected_field cfg st).selectionEnabled = false := by
  unfold on_selected_field
  rw [gfm_only_selectors cfg { st with featureItems := [], checkedItems := [] } st rfl rfl rfl, h]
  exact ⟨rfl, rfl⟩

/-- C5 witness: at construction nothing is selected, so enumeration fails and
the handler degrades. -/
theorem C5_witness :
    (on_selected_field ⟨none, []⟩ initState).featureItems = [] ∧
      (on_selected_field ⟨none, []⟩ initState).selectionEnabled = false :=
  C5_failure_degrades ⟨none, []⟩ initState rfl

lemma on_selected_field_preserves_ok (cfg : Config) (st : DialogState) :
    (on_selected_field cfg st).okEnabled = st.okEnabled ∧
      (on_selected_field cfg st).layerIndex = st.layerIndex := by
  unfold on_selected_field
  cases hM : generate_feature_model cfg { st with featureItems := [], checkedItems := [] } with
  | ok v => exact ⟨rfl, rfl⟩
  | error e => exact ⟨rfl, rfl⟩

lemma step_preserves_okInv (cfg : Config) (st : DialogState)
    (h : st.okEnabled = true ↔ st.layerIndex ≠ 0) (e : Ev) :
    ((step cfg st e).okEnabled = true ↔ (step cfg st e).layerIndex ≠ 0) := by
  cases e with
  | selectLayer i =>
      simp only [step]
      by_cases hi : i < cfg.availableLayers.length + 1
      · rw [if_pos hi]
        unfold on_selected_layer
        by_cases hz : i = 0
        · subst hz
          simp [accepted_layer]
        · have hidx : ({ st with layerIndex := i } : DialogState).layerIndex ≠ 0 := hz
          rw [if_pos hidx]
          have hlt : i - 1 < cfg.availableLayers.length := by omega
          have : accepted_layer cfg { st with layerIndex := i } =
              some (cfg.availableLayers[i - 1]) := by
            unfold accepted_layer
            rw [if_neg hz]
            exact List.getElem?_eq_getElem hlt
          rw [this]
          simp [hz]
      · rw [if_neg hi]
        exact h
  | selectField n =>
      simp only [step]
      obtain ⟨h1, h2⟩ := on_selected_field_preserves_ok cfg { st with currentFieldName := n }
      rw [h1, h2]
      exact h
  | resetRejected =>
      simp only [step]
      obtain ⟨h1, h2⟩ := on_selected_field_preserves_ok cfg
        { on_selected_layer cfg { st with layerIndex := 0 } with currentFieldName := "" }
      rw [h1, h2]
      unfold on_selected_layer
      simp
  | selectAllEv =>
      simpa only [step] using h
  | deselectAllEv =>
      simpa only [step] using h

/-- C8: in every reachable state of a modal session the `Ok` button is enabled
exactly when the layer combo is off the placeholder entry: disabled at
construction and whenever the placeholder is (re)selected, enabled by every
layer-changed event that selects a real layer. -/
theorem C8_ok_iff_layer (cfg : Config) (evs : List Ev) :
    ((run cfg evs).okEnabled = true ↔ (run cfg evs).layerIndex ≠ 0) := by
  suffices hgen : ∀ (st : DialogState), (st.okEnabled = true ↔ st.layerIndex ≠ 0) →
      ((evs.foldl (step cfg) st).okEnabled = true ↔
        (evs.foldl (step cfg) st).layerIndex ≠ 0) by
    exact hgen initState (by simp [initState])
  induction evs with
  | nil => exact fun st h => h
  | cons e es ih =>
      intro st h
      rw [List.foldl_cons]
      exact ih _ (step_preserves_okInv cfg st h e)

/-- C4 as stated is false: in a session where a field is selected and
enumeration succeeds with zero distinct values (a vector layer whose single
feature carries no value in the selected column), the value list is empty and
confirm stays enabled, but line 163 *enables* the bulk select/deselect
buttons — the success branch enables them regardless of how many values were
found, where the claim asserts they end up disabled. -/
theorem C4_counterexample :
    (generate_feature_model ⟨none, [⟨"L", false, 1, [⟨"f", 2, "int4", 0, 0⟩], [[]]⟩]⟩
        { run ⟨none, [⟨"L", false, 1, [⟨"f", 2, "int4", 0, 0⟩], [[]]⟩]⟩ [.selectLayer 1] with
          currentFieldName := "f", featureItems := [], checkedItems := [] } = .ok []) ∧
    (run ⟨none, [⟨"L", false, 1, [⟨"f", 2, "int4", 0, 0⟩], [[]]⟩]⟩
        [.selectLayer 1, .selectField "f"]).featureItems = [] ∧
    (run ⟨none, [⟨"L", false, 1, [⟨"f", 2, "int4", 0, 0⟩], [[]]⟩]⟩
        [.selectLayer 1, .selectField "f"]).okEnabled = true ∧
    (run ⟨none, [⟨"L", false, 1, [⟨"f", 2, "int4", 0, 0⟩], [[]]⟩]⟩
        [.selectLayer 1, .selectField "f"]).selectionEnabled = true :=
  ⟨rfl, rfl, rfl, rfl⟩

/-- C4 amended: when the enumeration of a selected field succeeds with zero
distinct values, the value list ends up empty and the bulk select/deselect
buttons end up *enabled* (the success branch enables them unconditionally),
while the confirm button's enablement is untouched — it stays enabled exactly
when it was, i.e. as long as a layer is chosen. -/
theorem C4_amended_zero_values (cfg : Config) (st : DialogState)
    (h : generate_feature_model cfg st = .ok []) :
    (on_selected_field cfg st).featureItems = [] ∧
      (on_selected_field cfg st).selectionEnabled = true ∧
      (on_selected_field cfg st).okEnabled = st.okEnabled := by
  unfold on_selected_field
  rw [gfm_only_selectors cfg { st with featureItems := [], checkedItems := [] } st rfl rfl rfl, h]
  exact ⟨rfl, rfl, rfl⟩

/-- C4 witness: the layer-chosen, field-chosen state whose enumeration
succeeds empty. -/
theorem C4_witness :
    (on_selected_field ⟨none, [⟨"L", false, 1, [⟨"f", 2, "int4", 0, 0⟩], [[]]⟩]⟩
        ⟨1, true, false, [⟨"f", 2, "int4", 0, 0⟩], "f", [], []⟩).featureItems = [] ∧
      (on_selected_field ⟨none, [⟨"L", false, 1, [⟨"f", 2, "int4", 0, 0⟩], [[]]⟩]⟩
        ⟨1, true, false, [⟨"f", 2, "int4", 0, 0⟩], "f", [], []⟩).selectionEnabled = true ∧
      (on_selected_field ⟨none, [⟨"L", false, 1, [⟨"f", 2, "int4", 0, 0⟩], [[]]⟩]⟩
        ⟨1, true, false, [⟨"f", 2, "int4", 0, 0⟩], "f", [], []⟩).okEnabled =
        (⟨1, true, false, [⟨"f", 2, "int4", 0, 0⟩], "f", [], []⟩ : DialogState).okEnabled :=
  C4_amended_zero_values ⟨none, [⟨"L", false, 1, [⟨"f", 2, "int4", 0, 0⟩], [[]]⟩]⟩
    ⟨1, true, false, [⟨"f", 2, "int4", 0, 0⟩], "f", [], []⟩ rfl

/-! ### Order facts for the Python comparison relations (claim C7) -/

lemma charListLt_irrefl : ∀ as : List Char, ¬ charListLt as as
  | [] => fun h => h
  | a :: as => fun h => by
      rcases h with h | ⟨_, h⟩
      · exact lt_irrefl a h
      · exact charListLt_irrefl as h

lemma charListLt_trans : ∀ as bs cs : List Char,
    charListLt as bs → charListLt bs cs → charListLt as cs
  | [], [], _, h1, _ => absurd h1 (fun h => h)
  | _ :: _, [], _, h1, _ => absurd h1 (fun h => h)
  | [], _ :: _, [], _, h2 => absurd h2 (fun h => h)
  | [], _ :: _, _ :: _, _, _ => trivial
  | _ :: _, _ :: _, [], _, h2 => absurd h2 (fun h => h)
  | a :: as, b :: bs, c :: cs, h1, h2 => by
      rcases h1 with h1 | ⟨rfl, h1⟩
      · rcases h2 with h2 | ⟨rfl, h2⟩
        · exact Or.inl (lt_trans h1 h2)
        · exact Or.inl h1
      · rcases h2 with h2 | ⟨rfl, h2⟩
        · exact Or.inl h2
        · exact Or.inr ⟨rfl, charListLt_trans as bs cs h1 h2⟩

lemma charListLt_trichot : ∀ as bs : List Char,
    charListLt as bs ∨ as = bs ∨ charListLt bs as
  | [], [] => Or.inr (Or.inl rfl)
  | [], _ :: _ => Or.inl trivial
  | _ :: _, [] => Or.inr (Or.inr trivial)
  | a :: as, b :: bs => by
      rcases lt_trichotomy a b with h | rfl | h
      · exact Or.inl (Or.inl h)
      · rcases charListLt_trichot as bs with h | rfl | h
        · exact Or.inl (Or.inr ⟨rfl, h⟩)
        · exact Or.inr (Or.inl rfl)
        · exact Or.inr (Or.inr (Or.inr ⟨rfl, h⟩))
      · exact Or.inr (Or.inr (Or.inl h))

lemma strLt_irrefl (s : String) : ¬ strLt s s := charListLt_irrefl s.data

lemma strLt_trans {s t u : String} (h1 : strLt s t) (h2 : strLt t u) : strLt s u :=
  charListLt_trans s.data t.data u.data h1 h2

lemma strLt_asymm {s t : String} (h : strLt s t) : ¬ strLt t s :=
  fun h2 => strLt_irrefl s (strLt_trans h h2)

lemma string_data_inj {s t : String} (h : s.data = t.data) : s = t := by
  cases s with
  | mk d1 =>
    cases t with
    | mk d2 => exact congrArg String.mk h

instance : IsTotal String strLe := ⟨fun s t => by
  rcases charListLt_trichot s.data t.data with h | h | h
  · exact Or.inl (Or.inl h)
  · exact Or.inl (Or.inr (string_data_inj h))
  · exact Or.inr (Or.inl h)⟩

instance : IsTrans String strLe := ⟨fun s t u h1 h2 => by
  rcases h1 with h1 | rfl
  · rcases h2 with h2 | rfl
    · exact Or.inl (strLt_trans h1 h2)
    · exact Or.inl h1
  · exact h2⟩

lemma dateLt_irrefl (d : DateV) : ¬ dateLt d d := by
  unfold dateLt
  omega

lemma dateLt_trans {a b c : DateV} (h1 : dateLt a b) (h2 : dateLt b c) : dateLt a c := by
  unfold dateLt at h1 h2 ⊢
  omega

lemma dateLt_trichot (a b : DateV) : dateLt a b ∨ a = b ∨ dateLt b a := by
  rcases a with ⟨ay, am, ad⟩
  rcases b with ⟨by2, bm, bd⟩
  unfold dateLt
  simp only [DateV.mk.injEq]
  omega

lemma attrLt_irrefl : ∀ a : AttrValue, ¬ attrLt a a
  | .vInt i => fun h => lt_irrefl i h
  | .vStr s => strLt_irrefl s
  | .vDate d => dateLt_irrefl d

lemma attrLt_trans : ∀ a b c : AttrValue, attrLt a b → attrLt b c → attrLt a c
  | .vInt _, .vInt _, .vInt _, h1, h2 => lt_trans h1 h2
  | .vInt _, .vInt _, .vStr _, _, _ => trivial
  | .vInt _, .vInt _, .vDate _, _, _ => trivial
  | .vInt _, .vStr _, .vInt _, _, h2 => absurd h2 (fun h => h)
  | .vInt _, .vStr _, .vStr _, _, _ => trivial
  | .vInt _, .vStr _, .vDate _, _, _ => trivial
  | .vInt _, .vDate _, .vInt _, _, h2 => absurd h2 (fun h => h)
  | .vInt _, .vDate _, .vStr _, _, h2 => absurd h2 (fun h => h)
  | .vInt _, .vDate _, .vDate _, _, _ => trivial
  | .vStr _, .vInt _, _, h1, _ => absurd h1 (fun h => h)
  | .vStr _, .vStr _, .vInt _, _, h2 => absurd h2 (fun h => h)
  | .vStr _, .vStr _, .vStr _, h1, h2 => strLt_trans h1 h2
  | .vStr _, .vStr _, .vDate _, _, _ => trivial
  | .vStr _, .vDate _, .vInt _, _, h2 => absurd h2 (fun h => h)
  | .vStr _, .vDate _, .vStr _, _, h2 => absurd h2 (fun h => h)
  | .vStr _, .vDate _, .vDate _, _, _ => trivial
  | .vDate _, .vInt _, _, h1, _ => absurd h1 (fun h => h)
  | .vDate _, .vStr _, _, h1, _ => absurd h1 (fun h => h)
  | .vDate _, .vDate _, .vInt _, _, h2 => absurd h2 (fun h => h)
  | .vDate _, .vDate _, .vStr _, _, h2 => absurd h2 (fun h => h)
  | .vDate _, .vDate _, .vDate _, h1, h2 => dateLt_trans h1 h2

lemma attrLt_trichot : ∀ a b : AttrValue, attrLt a b ∨ a = b ∨ attrLt b a
  | .vInt i, .vInt j => by
      rcases lt_trichotomy i j with h | rfl | h
      · exact Or.inl h
      · exact Or.inr (Or.inl rfl)
      · exact Or.inr (Or.inr h)
  | .vInt _, .vStr _ => Or.inl trivial
  | .vInt _, .vDate _ => Or.inl trivial
  | .vStr _, .vInt _ => Or.inr (Or.inr trivial)
  | .vStr s, .vStr t => by
      rcases charListLt_trichot s.data t.data with h | h | h
      · exact Or.inl h
      · exact Or.inr (Or.inl (congrArg AttrValue.vStr (string_data_inj h)))
      · exact Or.inr (Or.inr h)
  | .vStr _, .vDate _ => Or.inl trivial
  | .vDate _, .vInt _ => Or.inr (Or.inr trivial)
  | .vDate d, .vDate e => by
      rcases dateLt_trichot d e with h | rfl | h
      · exact Or.inl h
      · exact Or.inr (Or.inl rfl)
      · exact Or.inr (Or.inr h)
  | .vDate _, .vStr _ => Or.inr (Or.inr trivial)

lemma attrLt_asymm {a b : AttrValue} (h : attrLt a b) : ¬ attrLt b a :=
  fun h2 => attrLt_irrefl a (attrLt_trans a b a h h2)

instance : IsTotal AttrValue attrLe := ⟨fun a b => by
  rcases attrLt_trichot a b with h | rfl | h
  · exact Or.inl (Or.inl h)
  · exact Or.inl (Or.inr rfl)
  · exact Or.inr (Or.inl h)⟩

instance : IsTrans AttrValue attrLe := ⟨fun a b c h1 h2 => by
  rcases h1 with h1 | rfl
  · rcases h2 with h2 | rfl
    · exact Or.inl (attrLt_trans a b c h1 h2)
    · exact Or.inl h1
  · exact h2⟩

/-- In a sorted list, an element that may not come weakly after another one
sits at a strictly earlier index. -/
lemma sorted_exists_indices {α : Type} {le : α → α → Prop} {l : List α}
    (hs : List.Sorted le l) {a b : α} (ha : a ∈ l) (hb : b ∈ l)
    (hba : ¬ le b a) (hne : a ≠ b) :
    ∃ i j : Nat, i < j ∧ l[i]? = some a ∧ l[j]? = some b := by
  obtain ⟨i, hi⟩ := List.mem_iff_get.mp ha
  obtain ⟨j, hj⟩ := List.mem_iff_get.mp hb
  have hij : (i : Nat) < (j : Nat) := by
    rcases lt_trichotomy (i : Nat) (j : Nat) with h | h | h
    · exact h
    · exact absurd (by rw [← hi, ← hj]; exact congrArg l.get (Fin.ext h)) hne
    · exact absurd (by rw [← hi, ← hj]; exact hs.rel_get_of_lt h) hba
  refine ⟨i, j, hij, ?_, ?_⟩
  · rw [List.getElem?_eq_getElem i.isLt]
    exact congrArg some (by rw [← hi]; rfl)
  · rw [List.getElem?_eq_getElem j.isLt]
    exact congrArg some (by rw [← hj]; rfl)

/-! Zero-padded decimal digit strings compare lexicographically like the
numbers they denote. -/

lemma digitChar_lt : ∀ a, a < 10 → ∀ b, b < 10 → a < b →
    Nat.digitChar a < Nat.digitChar b := by
  decide

lemma split1000 (a b : Nat) (h : a < b) :
    a / 1000 < b / 1000 ∨ (a / 1000 = b / 1000 ∧ a % 1000 < b % 1000) := by
  omega

lemma split100 (a b : Nat) (h : a < b) :
    a / 100 < b / 100 ∨ (a / 100 = b / 100 ∧ a % 100 < b % 100) := by
  omega

lemma split10 (a b : Nat) (h : a < b) :
    a / 10 < b / 10 ∨ (a / 10 = b / 10 ∧ a % 10 < b % 10) := by
  omega

lemma digit2_of (n : Nat) : n / 100 % 10 = n % 1000 / 100 :=
  (Nat.mod_mul_right_div_self n 100 10).symm

lemma digit1_of (n : Nat) : n / 10 % 10 = n % 100 / 10 :=
  (Nat.mod_mul_right_div_self n 10 10).symm

lemma digits4_lt (n m : Nat) (h : n < m) (hm : m ≤ 9999) :
    n / 1000 % 10 < m / 1000 % 10 ∨ (n / 1000 % 10 = m / 1000 % 10 ∧
      (n / 100 % 10 < m / 100 % 10 ∨ (n / 100 % 10 = m / 100 % 10 ∧
        (n / 10 % 10 < m / 10 % 10 ∨ (n / 10 % 10 = m / 10 % 10 ∧
          n % 10 < m % 10))))) := by
  have idn3 : n / 1000 % 10 = n / 1000 := Nat.mod_eq_of_lt (by omega)
  have idm3 : m / 1000 % 10 = m / 1000 := Nat.mod_eq_of_lt (by omega)
  rw [idn3, idm3, digit2_of n, digit2_of m, digit1_of n, digit1_of m]
  rcases split1000 n m h with h3 | ⟨e3, hr3⟩
  · exact Or.inl h3
  · refine Or.inr ⟨e3, ?_⟩
    rcases split100 (n % 1000) (m % 1000) hr3 with h2 | ⟨e2, hr2⟩
    · exact Or.inl h2
    · refine Or.inr ⟨e2, ?_⟩
      have emn : n % 1000 % 100 = n % 100 := Nat.mod_mod_of_dvd n (by norm_num)
      have emm : m % 1000 % 100 = m % 100 := Nat.mod_mod_of_dvd m (by norm_num)
      rw [emn, emm] at hr2
      rcases split10 (n % 100) (m % 100) hr2 with h1 | ⟨e1, hr1⟩
      · exact Or.inl h1
      · refine Or.inr ⟨e1, ?_⟩
        have fn : n % 100 % 10 = n % 10 := Nat.mod_mod_of_dvd n (by norm_num)
        have fm : m % 100 % 10 = m % 10 := Nat.mod_mod_of_dvd m (by norm_num)
        rw [fn, fm] at hr1
        exact hr1

lemma digits2_lt (n m : Nat) (h : n < m) (hm : m ≤ 99) :
    n / 10 % 10 < m / 10 % 10 ∨ (n / 10 % 10 = m / 10 % 10 ∧ n % 10 < m % 10) := by
  have e1 : n / 10 % 10 = n / 10 := Nat.mod_eq_of_lt (by omega)
  have e2 : m / 10 % 10 = m / 10 := Nat.mod_eq_of_lt (by omega)
  rw [e1, e2]
  exact split10 n m h

lemma mod10_lt (k : Nat) : k % 10 < 10 := Nat.mod_lt k (by norm_num)

lemma clt_append_left (xs : List Char) {as bs : List Char}
    (h : charListLt as bs) : charListLt (xs ++ as) (xs ++ bs) := by
  induction xs with
  | nil => exact h
  | cons x xt ih => exact Or.inr ⟨rfl, ih⟩

lemma clt_pad4 (n m : Nat) (xs ys : List Char) (h : n < m) (hm : m ≤ 9999) :
    charListLt (pad4chars n ++ xs) (pad4chars m ++ ys) := by
  unfold pad4chars
  rcases digits4_lt n m h hm with h3 | ⟨e3, h2 | ⟨e2, h1 | ⟨e1, h0⟩⟩⟩
  · exact Or.inl (digitChar_lt _ (mod10_lt _) _ (mod10_lt _) h3)
  · exact Or.inr ⟨congrArg Nat.digitChar e3,
      Or.inl (digitChar_lt _ (mod10_lt _) _ (mod10_lt _) h2)⟩
  · exact Or.inr ⟨congrArg Nat.digitChar e3, Or.inr ⟨congrArg Nat.digitChar e2,
      Or.inl (digitChar_lt _ (mod10_lt _) _ (mod10_lt _) h1)⟩⟩
  · exact Or.inr ⟨congrArg Nat.digitChar e3, Or.inr ⟨congrArg Nat.digitChar e2,
      Or.inr ⟨congrArg Nat.digitChar e1,
        Or.inl (digitChar_lt _ (mod10_lt _) _ (mod10_lt _) h0)⟩⟩⟩

lemma clt_pad2 (n m : Nat) (xs ys : List Char) (h : n < m) (hm : m ≤ 99) :
    charListLt (pad2chars n ++ xs) (pad2chars m ++ ys) := by
  unfold pad2chars
  rcases digits2_lt n m h hm with h1 | ⟨e1, h0⟩
  · exact Or.inl (digitChar_lt _ (mod10_lt _) _ (mod10_lt _) h1)
  · exact Or.inr ⟨congrArg Nat.digitChar e1,
      Or.inl (digitChar_lt _ (mod10_lt _) _ (mod10_lt _) h0)⟩

/-- A chronologically earlier date renders to a lexicographically smaller
ISO-8601 string. -/
lemma toISO_lt {a b : DateV} (_hva : a.year ≤ 9999 ∧ a.month ≤ 99 ∧ a.day ≤ 99)
    (hvb : b.year ≤ 9999 ∧ b.month ≤ 99 ∧ b.day ≤ 99) (h : dateLt a b) :
    strLt a.toISO b.toISO := by
  show charListLt (DateV.toISO a).data (DateV.toISO b).data
  unfold DateV.toISO
  rcases h with hy | ⟨ey, hm | ⟨em, hd⟩⟩
  · exact clt_pad4 _ _ _ _ hy hvb.1
  · rw [ey]
    exact clt_append_left (pad4chars b.year)
      (Or.inr ⟨rfl, clt_pad2 _ _ _ _ hm hvb.2.1⟩)
  · rw [ey, em]
    exact clt_append_left (pad4chars b.year)
      (Or.inr ⟨rfl, clt_append_left (pad2chars b.month)
        (Or.inr ⟨rfl, clt_pad2 _ _ _ _ hd hvb.2.2⟩)⟩)

lemma isoMap_all_dates {l : List AttrValue} {ss : List String} (h : isoMap l = some ss) :
    ∀ a ∈ l, ∃ d : DateV, a = AttrValue.vDate d := by
  induction l generalizing ss with
  | nil =>
    intro a ha
    exact absurd ha (List.not_mem_nil a)
  | cons v vs ih =>
    intro a ha
    cases h2 : isoMap vs with
    | none =>
      cases v <;> simp [isoMap, h2] at h
    | some ts =>
      cases v with
      | vInt i => simp [isoMap, h2] at h
      | vStr s2 => simp [isoMap, h2] at h
      | vDate d =>
        rcases List.mem_cons.mp ha with rfl | ha2
        · exact ⟨d, rfl⟩
        · exact ih h2 a ha2

lemma isoMap_mem {l : List AttrValue} {ss : List String} (h : isoMap l = some ss)
    (s : String) :
    s ∈ ss ↔ ∃ d : DateV, AttrValue.vDate d ∈ l ∧ s = d.toISO := by
  induction l generalizing ss with
  | nil =>
    have : ss = [] := by
      simpa [isoMap] using h.symm
    subst this
    simp
  | cons v vs ih =>
    cases h2 : isoMap vs with
    | none =>
      cases v <;> simp [isoMap, h2] at h
    | some ts =>
      cases v with
      | vInt i => simp [isoMap, h2] at h
      | vStr s2 => simp [isoMap, h2] at h
      | vDate d =>
        have hss : ss = d.toISO :: ts := by
          simp [isoMap, h2] at h
          exact h.symm
        subst hss
        rw [List.mem_cons, ih h2]
        constructor
        · rintro (rfl | ⟨e, he, rfl⟩)
          · exact ⟨d, List.mem_cons_self _ _, rfl⟩
          · exact ⟨e, List.mem_cons_of_mem _ he, rfl⟩
        · rintro ⟨e, he, rfl⟩
          rcases List.mem_cons.mp he with he2 | he2
          · injection he2 with he3
            subst he3
            exact Or.inl rfl
          · exact Or.inr ⟨e, he2, rfl⟩

/-- C7: when enumeration succeeds for the selected layer and field, the value
list is exactly the distinct values of that field rendered as the code does —
ISO-8601 strings for date/time fields, `str` otherwise — and it is ascending:
any two distinct values `a < b` of the field appear with the rendering of `a`
strictly before that of `b`. -/
theorem C7_feature_model_sorted (cfg : Config) (st : DialogState) (layer : Layer)
    (field : MField) (vals : List String)
    (hL : accepted_layer cfg st = some layer) (hF : accepted_field st = some field)
    (hok : generate_feature_model cfg st = .ok vals) :
    (∀ v : String, v ∈ vals ↔
       ∃ a ∈ uniqueValues layer (indexFromName layer.fields field.name),
         v = renderValue field a) ∧
    (∀ a b : AttrValue,
       a ∈ uniqueValues layer (indexFromName layer.fields field.name) →
       b ∈ uniqueValues layer (indexFromName layer.fields field.name) →
       attrValid a → attrValid b → attrLt a b →
       ∃ i j : Nat, i < j ∧ vals[i]? = some (renderValue field a) ∧
         vals[j]? = some (renderValue field b)) := by
  unfold generate_feature_model at hok
  rw [hL, hF] at hok
  simp only at hok
  by_cases hdt : field.isDateOrTime
  · rw [if_pos hdt] at hok
    cases hiso : isoMap (uniqueValues layer (indexFromName layer.fields field.name)) with
    | none =>
      rw [hiso] at hok
      exact absurd hok (by simp)
    | some values =>
      rw [hiso] at hok
      have hvals : vals = List.insertionSort strLe values := by
        injection hok with h
        exact h.symm
      constructor
      · intro v
        rw [hvals, (List.perm_insertionSort strLe values).mem_iff, isoMap_mem hiso v]
        constructor
        · rintro ⟨d, hdmem, rfl⟩
          exact ⟨.vDate d, hdmem, by simp [renderValue, hdt]⟩
        · rintro ⟨a, hamem, rfl⟩
          obtain ⟨d, rfl⟩ := isoMap_all_dates hiso a hamem
          exact ⟨d, hamem, by simp [renderValue, hdt]⟩
      · intro a b ha hb hva hvb hab
        obtain ⟨da, rfl⟩ := isoMap_all_dates hiso a ha
        obtain ⟨db, rfl⟩ := isoMap_all_dates hiso b hb
        have hdlt : dateLt da db := hab
        have hlt : strLt da.toISO db.toISO := toISO_lt hva hvb hdlt
        have hma : da.toISO ∈ List.insertionSort strLe values :=
          (List.perm_insertionSort strLe values).mem_iff.mpr
            ((isoMap_mem hiso da.toISO).mpr ⟨da, ha, rfl⟩)
        have hmb : db.toISO ∈ List.insertionSort strLe values :=
          (List.perm_insertionSort strLe values).mem_iff.mpr
            ((isoMap_mem hiso db.toISO).mpr ⟨db, hb, rfl⟩)
        have hs : List.Sorted strLe (List.insertionSort strLe values) :=
          List.sorted_insertionSort strLe values
        have hne : da.toISO ≠ db.toISO := fun he => strLt_irrefl _ (he ▸ hlt)
        have hba : ¬ strLe db.toISO da.toISO := by
          rintro (h2 | h2)
          · exact strLt_asymm hlt h2
          · exact hne h2.symm
        obtain ⟨i, j, hij, hi, hj⟩ := sorted_exists_indices hs hma hmb hba hne
        rw [hvals]
        refine ⟨i, j, hij, ?_, ?_⟩
        · rw [show renderValue field (.vDate da) = da.toISO from by simp [renderValue, hdt]]
          exact hi
        · rw [show renderValue field (.vDate db) = db.toISO from by simp [renderValue, hdt]]
          exact hj
  · rw [if_neg hdt] at hok
    have hvals : vals =
        (List.insertionSort attrLe
          (uniqueValues layer (indexFromName layer.fields field.name))).map attrToStr := by
      injection hok with h
      exact h.symm
    constructor
    · intro v
      rw [hvals, List.mem_map]
      constructor
      · rintro ⟨a, hmem, rfl⟩
        exact ⟨a, (List.perm_insertionSort attrLe _).mem_iff.mp hmem,
          by simp [renderValue, hdt]⟩
      · rintro ⟨a, hmem, rfl⟩
        exact ⟨a, (List.perm_insertionSort attrLe _).mem_iff.mpr hmem,
          by simp [renderValue, hdt]⟩
    · intro a b ha hb _hva _hvb hab
      have hs := List.sorted_insertionSort attrLe
        (uniqueValues layer (indexFromName layer.fields field.name))
      have hma : a ∈ List.insertionSort attrLe
          (uniqueValues layer (indexFromName layer.fields field.name)) :=
        (List.perm_insertionSort attrLe _).mem_iff.mpr ha
      have hmb : b ∈ List.insertionSort attrLe
          (uniqueValues layer (indexFromName layer.fields field.name)) :=
        (List.perm_insertionSort attrLe _).mem_iff.mpr hb
      have hne : a ≠ b := fun he => attrLt_irrefl a (he ▸ hab)
      have hba : ¬ attrLe b a := by
        rintro (h2 | h2)
        · exact attrLt_asymm hab h2
        · exact hne h2.symm
      obtain ⟨i, j, hij, hi, hj⟩ := sorted_exists_indices hs hma hmb hba hne
      rw [hvals]
      refine ⟨i, j, hij, ?_, ?_⟩
      · rw [List.getElem?_map, hi]
        simp [renderValue, hdt]
      · rw [List.getElem?_map, hj]
        simp [renderValue, hdt]

/-- C7 witness: an int field over features with values {10, 2, 10} enumerates
to ["2", "10"] — distinct, numerically ascending, default-rendered. -/
theorem C7_witness :
    (∀ v : String, v ∈ (["2", "10"] : List String) ↔
       ∃ a ∈ uniqueValues ⟨"I", false, 1, [⟨"n", 2, "int", 0, 0⟩],
           [[.vInt 10], [.vInt 2], [.vInt 10]]⟩
         (indexFromName (Layer.fields ⟨"I", false, 1, [⟨"n", 2, "int", 0, 0⟩],
           [[.vInt 10], [.vInt 2], [.vInt 10]]⟩) (MField.name ⟨"n", 2, "int", 0, 0⟩)),
         v = renderValue ⟨"n", 2, "int", 0, 0⟩ a) ∧
    (∀ a b : AttrValue,
       a ∈ uniqueValues ⟨"I", false, 1, [⟨"n", 2, "int", 0, 0⟩],
           [[.vInt 10], [.vInt 2], [.vInt 10]]⟩
         (indexFromName (Layer.fields ⟨"I", false, 1, [⟨"n", 2, "int", 0, 0⟩],
           [[.vInt 10], [.vInt 2], [.vInt 10]]⟩) (MField.name ⟨"n", 2, "int", 0, 0⟩)) →
       b ∈ uniqueValues ⟨"I", false, 1, [⟨"n", 2, "int", 0, 0⟩],
           [[.vInt 10], [.vInt 2], [.vInt 10]]⟩
         (indexFromName (Layer.fields ⟨"I", false, 1, [⟨"n", 2, "int", 0, 0⟩],
           [[.vInt 10], [.vInt 2], [.vInt 10]]⟩) (MField.name ⟨"n", 2, "int", 0, 0⟩)) →
       attrValid a → attrValid b → attrLt a b →
       ∃ i j : Nat, i < j ∧
         (["2", "10"] : List String)[i]? = some (renderValue ⟨"n", 2, "int", 0, 0⟩ a) ∧
         (["2", "10"] : List String)[j]? = some (renderValue ⟨"n", 2, "int", 0, 0⟩ b)) :=
  C7_feature_model_sorted
    ⟨none, [⟨"I", false, 1, [⟨"n", 2, "int", 0, 0⟩], [[.vInt 10], [.vInt 2], [.vInt 10]]⟩]⟩
    ⟨1, true, false, [⟨"n", 2, "int", 0, 0⟩], "n", [], []⟩
    ⟨"I", false, 1, [⟨"n", 2, "int", 0, 0⟩], [[.vInt 10], [.vInt 2], [.vInt 10]]⟩
    ⟨"n", 2, "int", 0, 0⟩ ["2", "10"] rfl rfl rfl
